import Mathlib

/-!
Verification of the peaknorth-admin-blog-frontend repository.

Shallow embedding conventions:

* Instants are epoch milliseconds, modelled as `Int`.  The runtime clock's
  calendar (the calendar in which the date-fns helpers `startOfDay`,
  `setHours`, `addDays`, `addHours` operate, and in which the anchor string
  `new Date('2025-01-01T00:00:00')` is parsed) is modelled as proleptic UTC.
* A timezone (date-fns-tz) is modelled by its two offset functions:
  `utcOffset` gives the offset (in ms) added by `utcToZonedTime` as a
  function of the UTC instant, and `localOffset` gives the offset
  subtracted by `zonedTimeToUtc` as a function of the zoned (wall-clock)
  instant.  A fixed-offset zone has both functions constant.
* JavaScript `Math.floor(a / b)` on exact millisecond quantities with `b > 0`
  is `Int.fdiv`; the JavaScript remainder operator `%` (sign of the
  dividend) is `Int.tmod`.
* Fallible JavaScript (a `throw` inside a `try`) is embedded with `Except`.
* For the NaN-propagation behaviour of `computeNextSlots` on non-finite
  config fields, a second embedding over a JavaScript-number type `JSNum`
  (an `Int` or `NaN`) is given; the `Int` embedding is its restriction to
  finite inputs.
-/

/-- Milliseconds per minute. -/
def msPerMinute : Int := 60000

/-- Milliseconds per hour (`1000 * 60 * 60`). -/
def msPerHour : Int := 3600000

/-- Milliseconds per day (`1000 * 60 * 60 * 24`). -/
def msPerDay : Int := 86400000

/-- JavaScript `%`: remainder with the sign of the dividend. -/
def jsRem (a b : Int) : Int := Int.tmod a b

/-- A timezone, abstracted as the pair of offset functions used by
date-fns-tz (`src/lib/scheduling.ts` imports `utcToZonedTime` and
`zonedTimeToUtc`). -/
structure Timezone where
  utcOffset : Int → Int
  localOffset : Int → Int

/-- date-fns-tz `utcToZonedTime`: shift a UTC instant to the zone's
wall-clock representation. -/
def utcToZonedTime (tz : Timezone) (t : Int) : Int := t + tz.utcOffset t

/-- date-fns-tz `zonedTimeToUtc`: shift a wall-clock instant back to UTC. -/
def zonedTimeToUtc (tz : Timezone) (l : Int) : Int := l - tz.localOffset l

/-- date-fns `startOfDay` (runtime calendar modelled as UTC): floor to the
start of the current day. -/
def startOfDay (l : Int) : Int := msPerDay * Int.fdiv l msPerDay

/-- date-fns `setHours`: replace the hour-of-day field, keeping the
minute/second/millisecond fields. -/
def setHours (l : Int) (h : Int) : Int :=
  l - Int.fdiv (l - startOfDay l) msPerHour * msPerHour + h * msPerHour

/-- date-fns `addDays`. -/
def addDays (l : Int) (n : Int) : Int := l + n * msPerDay

/-- date-fns `addHours`. -/
def addHours (l : Int) (n : Int) : Int := l + n * msPerHour

/-- CadenceConfig (`src/types/post.ts`): the scheduling policy document.
The `timezone` field (an IANA name string in the source) is represented by
its resolved offset functions. -/
structure CadenceConfig where
  intervalDays : Int
  publishHour : Int
  timezone : Timezone
  draftLeadHours : Int
  reminderHours : Option Int := none

/-- ScheduleSlots (`src/lib/scheduling.ts`). -/
structure ScheduleSlots where
  scheduledAt : Int
  createAt : Int
  deriving DecidableEq

/-- `new Date('2025-01-01T00:00:00')` parsed by the runtime clock (modelled
as UTC): 20089 days after the epoch. -/
def anchorDate : Int := 20089 * msPerDay

/-- The candidate base of `computeNextSlots`: today's publish instant in
the configured zone, advanced by one day if it is not strictly in the
future (`src/lib/scheduling.ts` lines 19-28). -/
def basePublishTime (nowUtc : Int) (config : CadenceConfig) : Int :=
  let zonedNow := utcToZonedTime config.timezone nowUtc
  let todayAtPublishHour := setHours (startOfDay zonedNow) config.publishHour
  if todayAtPublishHour < zonedNow then addDays todayAtPublishHour 1
  else todayAtPublishHour

/-- The anchor instant of `computeNextSlots`: January 1 2025, shifted into
the configured zone and set to the publish hour (lines 32-34). -/
def anchorAtPublishHour (config : CadenceConfig) : Int :=
  let anchorInTimezone := utcToZonedTime config.timezone anchorDate
  setHours (startOfDay anchorInTimezone) config.publishHour

/-- `daysSinceAnchor` (lines 36-38): whole days between the anchor and the
candidate base, via `Math.floor`. -/
def daysSinceAnchor (nowUtc : Int) (config : CadenceConfig) : Int :=
  Int.fdiv (basePublishTime nowUtc config - anchorAtPublishHour config) msPerDay

/-- The local (wall-clock) instant of the slot chosen by `computeNextSlots`
(`nextSlotDate`, lines 40-43). -/
def nextSlotLocal (nowUtc : Int) (config : CadenceConfig) : Int :=
  let remainder := jsRem (daysSinceAnchor nowUtc config) config.intervalDays
  if remainder = 0 then basePublishTime nowUtc config
  else addDays (basePublishTime nowUtc config) (config.intervalDays - remainder)

/-- `computeNextSlots` (`src/lib/scheduling.ts` lines 14-56): the next
aligned publish slot and the draft-creation instant, both converted back
to UTC. -/
def computeNextSlots (nowUtc : Int) (config : CadenceConfig) : ScheduleSlots :=
  { scheduledAt := zonedTimeToUtc config.timezone (nextSlotLocal nowUtc config)
    createAt :=
      zonedTimeToUtc config.timezone
        (addHours (nextSlotLocal nowUtc config) (-config.draftLeadHours)) }

/-- `getTimeUntilPublish` result shape (`src/lib/scheduling.ts` lines 81-86). -/
structure TimeUntilPublish where
  days : Int
  hours : Int
  minutes : Int
  isPast : Bool
  deriving DecidableEq

/-- `getTimeUntilPublish` (`src/lib/scheduling.ts` lines 81-99).  The
source reads the current time from `Date.now()`; here it is the explicit
second argument. -/
def getTimeUntilPublish (scheduledAt : Int) (now : Int) : TimeUntilPublish :=
  let diff := scheduledAt - now
  if diff < 0 then { days := 0, hours := 0, minutes := 0, isPast := true }
  else
    { days := Int.fdiv diff msPerDay
      hours := Int.fdiv (jsRem diff msPerDay) msPerHour
      minutes := Int.fdiv (jsRem diff msPerHour) msPerMinute
      isPast := false }

-- A fixed-offset zone used by concrete evaluations (offset 0 = UTC,
-- itself a valid IANA zone name).
def utcZone : Timezone := { utcOffset := fun _ => 0, localOffset := fun _ => 0 }

/-- A JavaScript number restricted to the values reachable in
`computeNextSlots`: an exact integer or NaN.  Arithmetic, comparison and
the remainder propagate NaN exactly as IEEE-754 does on these values. -/
inductive JSNum where
  | nan : JSNum
  | num : Int → JSNum
  deriving DecidableEq

/-- JavaScript addition on `JSNum`. -/
def JSNum.add : JSNum → JSNum → JSNum
  | num a, num b => num (a + b)
  | _, _ => nan

/-- JavaScript subtraction on `JSNum`. -/
def JSNum.sub : JSNum → JSNum → JSNum
  | num a, num b => num (a - b)
  | _, _ => nan

/-- JavaScript `<` on `JSNum`: any comparison with NaN is false. -/
def JSNum.lt : JSNum → JSNum → Bool
  | num a, num b => a < b
  | _, _ => false

/-- JavaScript `===` comparison of a `JSNum` with zero: `NaN === 0` is
false. -/
def JSNum.isZero : JSNum → Bool
  | num a => a = 0
  | nan => false

/-- JavaScript `Math.floor (a / b)` for a positive integer literal `b`. -/
def JSNum.floorDivByPos (a : JSNum) (b : Int) : JSNum :=
  match a with
  | num v => num (Int.fdiv v b)
  | nan => nan

/-- JavaScript `%` on `JSNum`: NaN operands (or a zero divisor) give NaN. -/
def JSNum.rem : JSNum → JSNum → JSNum
  | num a, num b => if b = 0 then nan else num (jsRem a b)
  | _, _ => nan

/-- `startOfDay` lifted to `JSNum` (an invalid date stays invalid). -/
def startOfDayJS : JSNum → JSNum
  | JSNum.num l => JSNum.num (startOfDay l)
  | JSNum.nan => JSNum.nan

/-- `setHours` lifted to `JSNum`: a NaN hour (or an invalid date) yields an
invalid date. -/
def setHoursJS : JSNum → JSNum → JSNum
  | JSNum.num l, JSNum.num h => JSNum.num (setHours l h)
  | _, _ => JSNum.nan

/-- Multiplication of a `JSNum` by an integer constant. -/
def JSNum.mulConst : JSNum → Int → JSNum
  | num a, c => num (a * c)
  | nan, _ => nan

/-- `addDays` lifted to `JSNum`. -/
def addDaysJS (l : JSNum) (n : JSNum) : JSNum := l.add (n.mulConst msPerDay)

/-- `addHours` lifted to `JSNum`. -/
def addHoursJS (l : JSNum) (n : JSNum) : JSNum := l.add (n.mulConst msPerHour)

/-- `utcToZonedTime` lifted to `JSNum` (the offset lookup of an invalid
date is itself invalid). -/
def utcToZonedTimeJS (tz : Timezone) : JSNum → JSNum
  | JSNum.num t => JSNum.num (utcToZonedTime tz t)
  | JSNum.nan => JSNum.nan

/-- `zonedTimeToUtc` lifted to `JSNum`. -/
def zonedTimeToUtcJS (tz : Timezone) : JSNum → JSNum
  | JSNum.num l => JSNum.num (zonedTimeToUtc tz l)
  | JSNum.nan => JSNum.nan

/-- CadenceConfig whose numeric fields are JavaScript numbers, i.e. may be
NaN (the source performs no validation of them). -/
structure CadenceConfigJS where
  intervalDays : JSNum
  publishHour : JSNum
  timezone : Timezone
  draftLeadHours : JSNum

/-- `ScheduleSlots` as JavaScript numbers. -/
structure ScheduleSlotsJS where
  scheduledAt : JSNum
  createAt : JSNum
  deriving DecidableEq

/-- `computeNextSlots` embedded over JavaScript numbers, following
`src/lib/scheduling.ts` lines 14-56 statement by statement.  NaN config
fields flow through every arithmetic step; no step raises an error. -/
def computeNextSlotsJS (nowUtc : JSNum) (config : CadenceConfigJS) :
    ScheduleSlotsJS :=
  let zonedNow := utcToZonedTimeJS config.timezone nowUtc
  let todayAtPublishHour := setHoursJS (startOfDayJS zonedNow) config.publishHour
  let basePublishTime :=
    if todayAtPublishHour.lt zonedNow then addDaysJS todayAtPublishHour (JSNum.num 1)
    else todayAtPublishHour
  let anchorInTimezone := utcToZonedTimeJS config.timezone (JSNum.num anchorDate)
  let anchorAtPub := setHoursJS (startOfDayJS anchorInTimezone) config.publishHour
  let daysSince := (basePublishTime.sub anchorAtPub).floorDivByPos msPerDay
  let remainder := daysSince.rem config.intervalDays
  let nextSlotDate :=
    if remainder.isZero then basePublishTime
    else addDaysJS basePublishTime (config.intervalDays.sub remainder)
  { scheduledAt := zonedTimeToUtcJS config.timezone nextSlotDate
    createAt :=
      zonedTimeToUtcJS config.timezone
        (addHoursJS nextSlotDate ((JSNum.num 0).sub config.draftLeadHours)) }

/-- The post statuses that occur at runtime: the seven declared in
`src/types/post.ts` plus the two extra literals the dashboard writes
through `as PostStatus` casts (`UNPUBLISHED` and the source's spelling
`REGENRATE`). -/
inductive PostStatus where
  | BRIEF
  | OUTLINE
  | DRAFT
  | NEEDS_REVIEW
  | APPROVED
  | SCHEDULED
  | PUBLISHED
  | UNPUBLISHED
  | REGENRATE
  deriving DecidableEq

/-- Guard `canApprove` (PostEdit, `src/unnamed/part_003` line 880):
`["DRAFT", "NEEDS_REVIEW"].includes(post.status)`. -/
def canApprove (s : PostStatus) : Bool :=
  s == PostStatus.DRAFT || s == PostStatus.NEEDS_REVIEW

/-- Guard `canReject` (line 881):
`["DRAFT", "NEEDS_REVIEW", "REGENRATE"].includes(post.status)`; its button
writes status `REGENRATE`. -/
def canReject (s : PostStatus) : Bool :=
  s == PostStatus.DRAFT || s == PostStatus.NEEDS_REVIEW || s == PostStatus.REGENRATE

/-- Guard `canUnpublish` (line 882):
`["PUBLISHED", "UNPUBLISHED"].includes(post.status)`; the button is
additionally gated on `post.status === "PUBLISHED"` (line 947). -/
def canUnpublish (s : PostStatus) : Bool :=
  s == PostStatus.PUBLISHED || s == PostStatus.UNPUBLISHED

/-- Guard `canRepublish` (line 883): `["UNPUBLISHED"].includes(post.status)`;
the button is additionally gated on `post.status === "UNPUBLISHED"`
(line 962) and writes status `PUBLISHED`. -/
def canRepublish (s : PostStatus) : Bool := s == PostStatus.UNPUBLISHED

/-- Guard of the reject-to-draft button (`src/pages/PostEdit.tsx` line 82):
`post.status === "NEEDS_REVIEW"`; its button writes status `DRAFT`. -/
def canRejectToDraft (s : PostStatus) : Bool := s == PostStatus.NEEDS_REVIEW

/-- The effective human-initiated transition relation of the dashboard:
some button writing status `t` is enabled at current status `f`.  It is
the union of every status-writing action across the PostEdit variants,
each branch combining the guard with the inline gate on the button:

* `t = NEEDS_REVIEW`: the Submit-for-Review button, shown under
  `post.status === 'DRAFT'` (`src/unnamed/part_003` lines 437-469 and
  1211-1243);
* `t = APPROVED`: the header Approve button guarded by `canApprove`
  (lines 218-229 and 992-1005, `src/pages/PostEdit.tsx` lines 161-176)
  and the approve-again button shown under `post.status === 'APPROVED'`
  (lines 1301-1334);
* `t = SCHEDULED`: the Schedule-for-Publishing button, shown under
  `post.status === 'APPROVED'` (lines 528-563);
* `t = DRAFT`: the Request-Changes buttons guarded by
  `post.status === 'NEEDS_REVIEW'` (lines 203-216 and 474-523,
  `src/pages/PostEdit.tsx` lines 146-160);
* `t = REGENRATE`: the Regenerate button guarded by `canReject`
  (lines 977-990);
* `t = UNPUBLISHED` / `t = PUBLISHED`: the Unpublish/Republish buttons
  (lines 947-975 and 1355-1394). -/
def canTransition (f t : PostStatus) : Bool :=
  match t with
  | PostStatus.NEEDS_REVIEW => f == PostStatus.DRAFT
  | PostStatus.APPROVED => canApprove f || f == PostStatus.APPROVED
  | PostStatus.SCHEDULED => f == PostStatus.APPROVED
  | PostStatus.DRAFT => canRejectToDraft f
  | PostStatus.REGENRATE => canReject f
  | PostStatus.UNPUBLISHED => canUnpublish f && f == PostStatus.PUBLISHED
  | PostStatus.PUBLISHED => canRepublish f && f == PostStatus.UNPUBLISHED
  | _ => false

/-- BlogIdea (`src/types/post.ts`): `priority` is one of the strings
`"low"`, `"medium"`, `"high"`; `createdAt` an epoch-ms instant. -/
structure BlogIdea where
  id : String
  topic : String
  persona : String
  goal : String
  priority : String
  used : Bool
  createdAt : Int
  tags : List String := []
  deriving DecidableEq

/-- Lexicographic comparison of character lists by codepoint. -/
def codepointsLt : List Char → List Char → Bool
  | [], [] => false
  | [], _ :: _ => true
  | _ :: _, [] => false
  | a :: as, b :: bs =>
      if a.toNat < b.toNat then true
      else if b.toNat < a.toNat then false
      else codepointsLt as bs

/-- Firestore's ordering of string field values: lexicographic by UTF-8
code units, which on these strings coincides with codepoint order. -/
def firestoreStringLt (a b : String) : Bool := codepointsLt a.data b.data

/-- The composite sort key of the `getUnusedIdeas` query
(`src/lib/firestore.ts` lines 140-153): `orderBy('priority', 'desc')`,
then `orderBy('createdAt', 'asc')`, with Firestore's implicit document-id
ascending tiebreak. -/
def ideaComesBefore (a b : BlogIdea) : Bool :=
  if a.priority ≠ b.priority then firestoreStringLt b.priority a.priority
  else if a.createdAt ≠ b.createdAt then a.createdAt < b.createdAt
  else firestoreStringLt a.id b.id

/-- Insert into a list sorted by the strict order `before`. -/
def orderedInsert (before : α → α → Bool) (a : α) : List α → List α
  | [] => [a]
  | b :: l => if before a b then a :: b :: l else b :: orderedInsert before a l

/-- Sort by the strict order `before` (models the ordered result set of a
Firestore query). -/
def sortByOrder (before : α → α → Bool) : List α → List α
  | [] => []
  | a :: l => orderedInsert before a (sortByOrder before l)

/-- `FirestoreService.getUnusedIdeas` (`src/lib/firestore.ts` lines
140-153): the documents of the ideas collection with `used == false`,
ordered by the query's composite key. -/
def getUnusedIdeas (ideas : List BlogIdea) : List BlogIdea :=
  sortByOrder ideaComesBefore (ideas.filter (fun i => i.used == false))

/-- `FirestoreService.markIdeaAsUsed` (`src/lib/firestore.ts` lines
155-158): `updateDoc(ideaRef, { used: true })`. -/
def markIdeaAsUsed (ideas : List BlogIdea) (id : String) : List BlogIdea :=
  ideas.map (fun i => if i.id == id then { i with used := true } else i)

/-- The BlogPost fields involved in status updates
(`src/types/post.ts`). -/
structure PostRec where
  id : String
  status : PostStatus
  scheduledAt : Option Int
  publishedAt : Option Int
  createdAt : Option Int
  updatedAt : Option Int
  ideaId : Option String := none
  deriving DecidableEq

/-- The document-store state seen by `HybridFirestoreService.updatePostStatus`:
the automation posts collection and the ideas collection.  (The legacy
collection is read-only for this operation: legacy posts carry no `ideaId`
and `updatePost` writes only to the automation collection.) -/
structure Store where
  posts : List PostRec
  ideas : List BlogIdea
  deriving DecidableEq

/-- `HybridFirestoreService.updatePostStatus` (`src/lib/hybrid-firestore.ts`
lines 184-207) followed by its call to `updatePost` (lines 175-181):

* the update document carries the new status and, when the new status is
  `PUBLISHED`, `publishedAt := now` (the optional `additionalData`
  parameter is omitted here; no caller passes it);
* when the new status is `PUBLISHED` and the post carries an `ideaId`, the
  originating idea is marked used inside a `try`/`catch`, modelled by the
  `markIdeaThrows` oracle: when the marking throws, the error is swallowed
  and the ideas collection is left unchanged;
* `updatePost` then merges the update document into the post and stamps
  `updatedAt := now`, unconditionally. -/
def updatePostStatus (st : Store) (id : String) (status : PostStatus)
    (now : Int) (markIdeaThrows : Bool) : Store :=
  let ideas :=
    if status = PostStatus.PUBLISHED then
      match st.posts.find? (fun p => p.id == id) with
      | some post =>
          match post.ideaId with
          | some ideaId =>
              if markIdeaThrows then st.ideas else markIdeaAsUsed st.ideas ideaId
          | none => st.ideas
      | none => st.ideas
    else st.ideas
  let posts :=
    st.posts.map (fun p =>
      if p.id == id then
        { p with
            status := status
            publishedAt :=
              if status = PostStatus.PUBLISHED then some now else p.publishedAt
            updatedAt := some now }
      else p)
  { posts := posts, ideas := ideas }

/-- The record returned by `getPostStats`. -/
structure PostStats where
  total : Nat
  published : Nat
  scheduled : Nat
  needsReview : Nat
  drafts : Nat
  deriving DecidableEq

/-- `HybridFirestoreService.getPostStats` (`src/lib/hybrid-firestore.ts`
lines 253-274), applied to the merged list of normalized existing posts
and automation posts. -/
def getPostStats (allPosts : List PostRec) : PostStats :=
  { total := allPosts.length
    published :=
      (allPosts.filter (fun p => p.status == PostStatus.PUBLISHED)).length
    scheduled :=
      (allPosts.filter (fun p =>
        p.status == PostStatus.APPROVED || p.status == PostStatus.SCHEDULED)).length
    needsReview :=
      (allPosts.filter (fun p => p.status == PostStatus.NEEDS_REVIEW)).length
    drafts :=
      (allPosts.filter (fun p =>
        [PostStatus.BRIEF, PostStatus.OUTLINE, PostStatus.DRAFT].contains
          p.status)).length }

/-- A document read from the legacy `posts` collection, before any shape
assumption: every field of the `ExistingBlogPost` interface
(`src/types/existing-post.ts`) may be absent, and the document may instead
carry automation-format fields (`brief`, `outline`, `status`), whose
presence is what `getExistingPosts` sniffs (`src/lib/hybrid-firestore.ts`
line 85).  Display-only numeric fields (`readTime`, word counts) are
omitted. -/
structure ExistingDoc where
  title : Option String := none
  content : Option String := none
  shortDescription : Option String := none
  slug : Option String := none
  tags : Option (List String) := none
  isPublished : Option Bool := none
  publishedAt : Option Int := none
  createdAt : Option Int := none
  updatedAt : Option Int := none
  hasBrief : Bool := false
  hasOutline : Bool := false
  status : Option PostStatus := none
  deriving DecidableEq

/-- JavaScript truthiness of a possibly absent boolean field. -/
def Option.isTruthy : Option Bool → Bool
  | some b => b
  | none => false

/-- The unified post shape produced by the listing normalizer.  `status`
is optional because the pass-through branch copies the raw document, whose
`status` field may be absent. -/
structure NormalizedPost where
  status : Option PostStatus
  scheduledAt : Option Int
  publishedAt : Option Int
  createdAt : Option Int
  updatedAt : Option Int
  briefTopic : Option String := none
  briefPersona : Option String := none
  briefGoal : Option String := none
  outlineTitle : Option String := none
  seoSlug : Option String := none
  seoFocusKeyword : Option String := none
  seoKeywords : List String := []
  tags : List String := []
  publicUrl : Option String := none
  deriving DecidableEq

/-- `mapExistingPostToBlogPost` (`src/types/existing-post.ts` lines 23-60).
The only statement of its body that can throw is the element access
`existingPost.tags[0]` (a TypeError when `tags` is absent), embedded as
`Except.error`.  `now` stands for the `Date.now()` fallback used for
missing timestamps. -/
def mapExistingPostToBlogPost (now : Int) (d : ExistingDoc) :
    Except Unit NormalizedPost :=
  match d.tags with
  | none => Except.error ()
  | some tags =>
      Except.ok
        { status :=
            some (if d.isPublished.isTruthy then PostStatus.PUBLISHED
                  else PostStatus.DRAFT)
          scheduledAt := none
          publishedAt := d.publishedAt
          createdAt := some (d.createdAt.getD now)
          updatedAt := some (d.updatedAt.getD now)
          briefTopic := d.title
          briefPersona := some "Blog readers"
          briefGoal := d.shortDescription
          outlineTitle := d.title
          seoSlug := d.slug
          seoFocusKeyword := some ((tags.head?).getD "")
          seoKeywords := tags
          tags := tags
          publicUrl :=
            some ("https://peaknorth.com/blog/" ++ d.slug.getD "undefined") }

/-- The minimal safe placeholder substituted by the `catch` branch of
`getExistingPosts` (`src/lib/hybrid-firestore.ts` lines 95-108). -/
def placeholderPost (now : Int) : NormalizedPost :=
  { status := some PostStatus.DRAFT
    scheduledAt := none
    publishedAt := none
    createdAt := some now
    updatedAt := some now
    tags := []
    publicUrl := none }

/-- The pass-through branch of `getExistingPosts` (line 85-88): a document
that already carries automation-format fields is returned unchanged. -/
def passthroughPost (d : ExistingDoc) : NormalizedPost :=
  { status := d.status
    scheduledAt := none
    publishedAt := d.publishedAt
    createdAt := d.createdAt
    updatedAt := d.updatedAt
    briefTopic := none
    tags := d.tags.getD []
    publicUrl := none }

/-- The per-document normalization performed by `getExistingPosts`
(`src/lib/hybrid-firestore.ts` lines 80-110): pass new-format documents
through, map legacy documents, and catch any mapping error by
substituting the placeholder.  This function is total: no input makes it
propagate an exception to the caller. -/
def normalizeExistingDoc (now : Int) (d : ExistingDoc) : NormalizedPost :=
  if d.hasBrief || d.hasOutline || d.status.isSome then passthroughPost d
  else
    match mapExistingPostToBlogPost now d with
    | Except.ok p => p
    | Except.error _ => placeholderPost now

/-- A document conforming to the legacy `ExistingBlogPost` interface: all
legacy fields present, no automation-format fields. -/
def LegacyShaped (d : ExistingDoc) : Prop :=
  d.title.isSome ∧ d.content.isSome ∧ d.shortDescription.isSome ∧
  d.slug.isSome ∧ d.tags.isSome ∧ d.isPublished.isSome ∧
  d.hasBrief = false ∧ d.hasOutline = false ∧ d.status = none

instance (d : ExistingDoc) : Decidable (LegacyShaped d) := by
  unfold LegacyShaped; infer_instance

/-- The transition pairs that C4 (spec §4.2) lists as allowed, written
from the claim's words for comparison with the code's guards. -/
def specAllowedTransition : PostStatus → PostStatus → Bool
  | PostStatus.DRAFT, PostStatus.NEEDS_REVIEW => true
  | PostStatus.DRAFT, PostStatus.APPROVED => true
  | PostStatus.NEEDS_REVIEW, PostStatus.APPROVED => true
  | PostStatus.APPROVED, PostStatus.APPROVED => true
  | PostStatus.NEEDS_REVIEW, PostStatus.DRAFT => true
  | PostStatus.NEEDS_REVIEW, PostStatus.REGENRATE => true
  | PostStatus.REGENRATE, PostStatus.REGENRATE => true
  | PostStatus.PUBLISHED, PostStatus.UNPUBLISHED => true
  | PostStatus.UNPUBLISHED, PostStatus.PUBLISHED => true
  | _, _ => false

/-- C4's allowed list amended by the two pairs the code forces:
DRAFT → REGENRATE (the Regenerate button's guard also lists DRAFT) and
APPROVED → SCHEDULED (the Schedule-for-Publishing button). -/
def amendedAllowedTransition (f t : PostStatus) : Bool :=
  specAllowedTransition f t
    || (f == PostStatus.DRAFT && t == PostStatus.REGENRATE)
    || (f == PostStatus.APPROVED && t == PostStatus.SCHEDULED)

/-- An unused high-priority idea created before an unused medium-priority
one. -/
def highIdeaEarlier : BlogIdea :=
  { id := "a", topic := "t1", persona := "p", goal := "g",
    priority := "high", used := false, createdAt := 1 }

/-- An unused medium-priority idea created later. -/
def mediumIdeaLater : BlogIdea :=
  { id := "b", topic := "t2", persona := "p", goal := "g",
    priority := "medium", used := false, createdAt := 2 }

/-- A used idea, which the query's `where used == false` filters out. -/
def usedIdea : BlogIdea :=
  { id := "c", topic := "t3", persona := "p", goal := "g",
    priority := "high", used := true, createdAt := 0 }

/-- A post whose status lies outside all four reported buckets. -/
def unpublishedDemoPost : PostRec :=
  { id := "u", status := PostStatus.UNPUBLISHED, scheduledAt := none,
    publishedAt := some 1, createdAt := some 0, updatedAt := some 2 }

/-- A post that was published at instant 100 and is currently unpublished. -/
def republishDemoPost : PostRec :=
  { id := "p1", status := PostStatus.UNPUBLISHED, scheduledAt := none,
    publishedAt := some 100, createdAt := some 0, updatedAt := some 50,
    ideaId := none }

/-- A store holding only `republishDemoPost`. -/
def republishDemoStore : Store := { posts := [republishDemoPost], ideas := [] }

/-- A post carrying a back-reference to an idea. -/
def ideaBackrefPost : PostRec :=
  { id := "p2", status := PostStatus.APPROVED, scheduledAt := some 400,
    publishedAt := none, createdAt := some 0, updatedAt := some 1,
    ideaId := some "i1" }

/-- An unused idea referenced by `ideaBackrefPost`. -/
def backrefIdea : BlogIdea :=
  { id := "i1", topic := "t", persona := "p", goal := "g",
    priority := "high", used := false, createdAt := 0 }

/-- A store holding `ideaBackrefPost` and `backrefIdea`. -/
def ideaDemoStore : Store :=
  { posts := [ideaBackrefPost], ideas := [backrefIdea] }

/-- A well-formed published legacy document. -/
def legacyDemoDoc : ExistingDoc :=
  { title := some "T", content := some "<p>x</p>",
    shortDescription := some "S", slug := some "my-post",
    tags := some ["k"], isPublished := some true, publishedAt := some 10,
    createdAt := some 5, updatedAt := some 6 }

/-- A fully empty (malformed) document: every field absent. -/
def malformedDemoDoc : ExistingDoc := {}

/-- The day index (whole days since the epoch, in the zoned calendar) of
the candidate base chosen by `computeNextSlots`. -/
def baseDay (nowUtc : Int) (config : CadenceConfig) : Int :=
  let zonedNow := utcToZonedTime config.timezone nowUtc
  Int.fdiv zonedNow msPerDay
    + (if setHours (startOfDay zonedNow) config.publishHour < zonedNow then 1
       else 0)

/-- The day index of the anchor instant. -/
def anchorDay (config : CadenceConfig) : Int :=
  Int.fdiv (utcToZonedTime config.timezone anchorDate) msPerDay

/-- The cadence config of the worked scheduling scenario (interval 2 days,
publish hour 10, lead 24h) over a fixed-offset zone. -/
def demoCadence : CadenceConfig :=
  { intervalDays := 2, publishHour := 10, timezone := utcZone,
    draftLeadHours := 24 }

/-- A valid cadence config (interval 2 days, publish hour 0, lead 1h) over
the same fixed-offset zone. -/
def preAnchorCadence : CadenceConfig :=
  { intervalDays := 2, publishHour := 0, timezone := utcZone,
    draftLeadHours := 1 }

/-- C2: for every call (in particular every valid config), the `createAt`
returned by `computeNextSlots` is obtained by subtracting `draftLeadHours`
hours from the local slot instant and only then converting to UTC, the
same conversion that produces `scheduledAt` from the unshifted local slot
instant. -/
theorem createAt_lead_subtraction_local (nowUtc : Int) (config : CadenceConfig) :
    (computeNextSlots nowUtc config).scheduledAt
        = zonedTimeToUtc config.timezone (nextSlotLocal nowUtc config)
    ∧ (computeNextSlots nowUtc config).createAt
        = zonedTimeToUtc config.timezone
            (nextSlotLocal nowUtc config - config.draftLeadHours * msPerHour) := by
  refine ⟨rfl, ?_⟩
  show zonedTimeToUtc config.timezone
      (addHours (nextSlotLocal nowUtc config) (-config.draftLeadHours)) = _
  unfold addHours
  congr 1
  ring

/-- C3 evidence: `computeNextSlots` performs no validation of the numeric
config fields.  With `publishHour = NaN` (and an otherwise valid config and
timezone) the NaN flows through every arithmetic step and the function
returns a NaN-valued schedule instead of failing fast: the claimed
config-error is never raised. -/
theorem computeNextSlots_nan_publishHour_silent :
    computeNextSlotsJS (JSNum.num anchorDate)
        { intervalDays := JSNum.num 2, publishHour := JSNum.nan,
          timezone := utcZone, draftLeadHours := JSNum.num 24 } =
      { scheduledAt := JSNum.nan, createAt := JSNum.nan } := by decide

/-- C4 counterexample: two dashboard actions are enabled at pairs outside
the claim's allowed list — the Regenerate button at status `DRAFT`
(`canReject` lists `"DRAFT"`), permitting (DRAFT, REGENRATE), and the
Schedule-for-Publishing button at status `APPROVED`, permitting
(APPROVED, SCHEDULED). -/
theorem canTransition_allows_draft_regenerate :
    (specAllowedTransition PostStatus.DRAFT PostStatus.REGENRATE = false
      ∧ canTransition PostStatus.DRAFT PostStatus.REGENRATE = true)
    ∧ (specAllowedTransition PostStatus.APPROVED PostStatus.SCHEDULED = false
      ∧ canTransition PostStatus.APPROVED PostStatus.SCHEDULED = true) := by
  decide

/-- C4 amended: every ordered status pair outside the allowed list of
§4.2 extended with DRAFT → REGENRATE and APPROVED → SCHEDULED is not
permitted by any dashboard action guard. -/
theorem canTransition_guard_amended (f t : PostStatus)
    (h : amendedAllowedTransition f t = false) : canTransition f t = false := by
  revert h
  cases f <;> cases t <;> decide

/-- Witness for the amended C4 guard property at a concrete pair. -/
theorem canTransition_guard_witness :
    canTransition PostStatus.BRIEF PostStatus.APPROVED = false :=
  canTransition_guard_amended PostStatus.BRIEF PostStatus.APPROVED (by decide)

/-- C8 evidence: `orderBy('priority', 'desc')` orders the *string* field
lexicographically, and `"high" < "medium"` in that order, so the unused
medium-priority idea is returned ahead of the older unused high-priority
idea — the selection is not "high priority first". -/
theorem getUnusedIdeas_lexicographic_priority :
    getUnusedIdeas [highIdeaEarlier, mediumIdeaLater, usedIdea]
        = [mediumIdeaLater, highIdeaEarlier]
    ∧ firestoreStringLt "high" "medium" = true := by decide

/-- C7 counterexample: at `t = now` (so `t ≤ now`) the source tests
`diff < 0`, which is false, and returns `isPast = false` — not the
`isPast = true` the claim requires for every `t ≤ now`. -/
theorem getTimeUntilPublish_boundary_not_past :
    (0 : Int) ≤ 0
    ∧ getTimeUntilPublish 0 0
        = { days := 0, hours := 0, minutes := 0, isPast := false } := by decide

/-- C7 amended: `getTimeUntilPublish` returns `isPast = true` with zero
components exactly when `t` is strictly before `now`; when `now ≤ t` it
returns `isPast = false` with non-negative, range-correct components whose
total `days*24*60 + hours*60 + minutes` is the floor of the remaining time
in whole minutes. -/
theorem getTimeUntilPublish_floor_decomposition (t now : Int) :
    (t < now →
      getTimeUntilPublish t now
        = { days := 0, hours := 0, minutes := 0, isPast := true })
    ∧ (now ≤ t →
      (getTimeUntilPublish t now).isPast = false
      ∧ 0 ≤ (getTimeUntilPublish t now).days
      ∧ 0 ≤ (getTimeUntilPublish t now).hours
      ∧ (getTimeUntilPublish t now).hours < 24
      ∧ 0 ≤ (getTimeUntilPublish t now).minutes
      ∧ (getTimeUntilPublish t now).minutes < 60
      ∧ (getTimeUntilPublish t now).days * (24 * 60)
          + (getTimeUntilPublish t now).hours * 60
          + (getTimeUntilPublish t now).minutes
        = (t - now) / 60000) := by
  constructor
  · intro h
    unfold getTimeUntilPublish
    rw [if_pos (by omega)]
  · intro h
    have ha : (0 : Int) ≤ t - now := by omega
    unfold getTimeUntilPublish
    rw [if_neg (by omega)]
    simp only [jsRem, msPerDay, msPerHour, msPerMinute]
    rw [Int.tmod_eq_emod ha (by norm_num), Int.tmod_eq_emod ha (by norm_num),
      Int.fdiv_eq_ediv _ (by norm_num), Int.fdiv_eq_ediv _ (by norm_num),
      Int.fdiv_eq_ediv _ (by norm_num)]
    refine ⟨trivial, ?_, ?_, ?_, ?_, ?_, ?_⟩ <;> omega

/-- Witness for the amended C7 decomposition at a concrete future instant
(1 day, 1 hour, 1 minute and 1 second ahead). -/
theorem getTimeUntilPublish_floor_witness :
    (0 : Int) ≤ 90061000
    ∧ ((getTimeUntilPublish 90061000 0).isPast = false
      ∧ 0 ≤ (getTimeUntilPublish 90061000 0).days
      ∧ 0 ≤ (getTimeUntilPublish 90061000 0).hours
      ∧ (getTimeUntilPublish 90061000 0).hours < 24
      ∧ 0 ≤ (getTimeUntilPublish 90061000 0).minutes
      ∧ (getTimeUntilPublish 90061000 0).minutes < 60
      ∧ (getTimeUntilPublish 90061000 0).days * (24 * 60)
          + (getTimeUntilPublish 90061000 0).hours * 60
          + (getTimeUntilPublish 90061000 0).minutes
        = ((90061000 : Int) - 0) / 60000) :=
  ⟨by decide, (getTimeUntilPublish_floor_decomposition 90061000 0).2 (by decide)⟩

/-- Every status falls in exactly one of the five indicator buckets used
by `getPostStats` (the four reported buckets plus the unreported
UNPUBLISHED/REGENRATE remainder). -/
theorem statusBucketIndicator : ∀ s : PostStatus,
    ((if s == PostStatus.PUBLISHED then 1 else 0)
      + (if s == PostStatus.APPROVED || s == PostStatus.SCHEDULED then 1 else 0)
      + (if s == PostStatus.NEEDS_REVIEW then 1 else 0)
      + (if [PostStatus.BRIEF, PostStatus.OUTLINE, PostStatus.DRAFT].contains s
          then 1 else 0)
      + (if s == PostStatus.UNPUBLISHED || s == PostStatus.REGENRATE then 1 else 0)
      : Nat) = 1 := by
  intro s
  cases s <;> decide

/-- The five bucket counts partition the merged post list. -/
theorem statusBucketCountPartition (l : List PostRec) :
    l.countP (fun p => p.status == PostStatus.PUBLISHED)
      + l.countP (fun p =>
          p.status == PostStatus.APPROVED || p.status == PostStatus.SCHEDULED)
      + l.countP (fun p => p.status == PostStatus.NEEDS_REVIEW)
      + l.countP (fun p =>
          [PostStatus.BRIEF, PostStatus.OUTLINE, PostStatus.DRAFT].contains p.status)
      + l.countP (fun p =>
          p.status == PostStatus.UNPUBLISHED || p.status == PostStatus.REGENRATE)
      = l.length := by
  induction l with
  | nil => rfl
  | cons p l ih =>
      have key := statusBucketIndicator p.status
      simp only [List.countP_cons, List.length_cons]
      omega

/-- C10: `getPostStats` reports `total` as the number of merged posts and
the four buckets as the counts of the status sets {PUBLISHED},
{APPROVED, SCHEDULED}, {NEEDS_REVIEW} and {BRIEF, OUTLINE, DRAFT}; posts
with the remaining statuses (UNPUBLISHED, REGENRATE) are counted in
`total` but in no bucket, so the bucket sum can be strictly below
`total` — witnessed by a singleton UNPUBLISHED list. -/
theorem getPostStats_bucket_partition (allPosts : List PostRec) :
    (getPostStats allPosts).total = allPosts.length
    ∧ (getPostStats allPosts).published
        = allPosts.countP (fun p => p.status == PostStatus.PUBLISHED)
    ∧ (getPostStats allPosts).scheduled
        = allPosts.countP (fun p =>
            p.status == PostStatus.APPROVED || p.status == PostStatus.SCHEDULED)
    ∧ (getPostStats allPosts).needsReview
        = allPosts.countP (fun p => p.status == PostStatus.NEEDS_REVIEW)
    ∧ (getPostStats allPosts).drafts
        = allPosts.countP (fun p =>
            [PostStatus.BRIEF, PostStatus.OUTLINE, PostStatus.DRAFT].contains
              p.status)
    ∧ (getPostStats allPosts).published + (getPostStats allPosts).scheduled
        + (getPostStats allPosts).needsReview + (getPostStats allPosts).drafts
        + allPosts.countP (fun p =>
            p.status == PostStatus.UNPUBLISHED || p.status == PostStatus.REGENRATE)
        = (getPostStats allPosts).total
    ∧ (getPostStats [unpublishedDemoPost]).published
        + (getPostStats [unpublishedDemoPost]).scheduled
        + (getPostStats [unpublishedDemoPost]).needsReview
        + (getPostStats [unpublishedDemoPost]).drafts
        < (getPostStats [unpublishedDemoPost]).total := by
  have hpart := statusBucketCountPartition allPosts
  unfold getPostStats
  dsimp only
  refine ⟨rfl, (List.countP_eq_length_filter _ _).symm,
    (List.countP_eq_length_filter _ _).symm,
    (List.countP_eq_length_filter _ _).symm,
    (List.countP_eq_length_filter _ _).symm, ?_, by decide⟩
  simp only [List.countP_eq_length_filter] at hpart ⊢
  exact hpart

/-- C5 counterexample: republishing (the Republish button calls
`updatePostStatus(id, "PUBLISHED")`) overwrites the `publishedAt` of a
post originally published at instant 100 with the current instant 200:
`publishedAt` is reassigned on a later transition into PUBLISHED, not
preserved. -/
theorem republish_overwrites_publishedAt :
    republishDemoPost.publishedAt = some 100
    ∧ ((updatePostStatus republishDemoStore "p1" PostStatus.PUBLISHED 200
          false).posts.find? (fun p => p.id == "p1")).map PostRec.publishedAt
        = some (some 200) := by decide

/-- C5 amended: `updatePostStatus` assigns `publishedAt := now` on every
transition into PUBLISHED (overwriting any earlier value, in particular on
Republish), and leaves `publishedAt` unchanged on every update to a
non-PUBLISHED status. -/
theorem updatePostStatus_publishedAt_amended (st : Store) (id : String)
    (status : PostStatus) (now : Int) (mf : Bool) (p : PostRec)
    (hp : p ∈ st.posts) :
    ∃ q, q ∈ (updatePostStatus st id status now mf).posts
      ∧ q.publishedAt
          = (if p.id = id ∧ status = PostStatus.PUBLISHED then some now
             else p.publishedAt)
      ∧ q.status = (if p.id = id then status else p.status) := by
  refine ⟨_, List.mem_map_of_mem _ hp, ?_, ?_⟩ <;>
    · by_cases h : p.id = id
      · simp [h]
      · simp [h]

/-- Witness for the amended C5 statement on the republish store. -/
theorem updatePostStatus_publishedAt_witness :
    ∃ q, q ∈ (updatePostStatus republishDemoStore "p1" PostStatus.PUBLISHED 200
        false).posts
      ∧ q.publishedAt
          = (if republishDemoPost.id = "p1"
                ∧ PostStatus.PUBLISHED = PostStatus.PUBLISHED then some 200
             else republishDemoPost.publishedAt)
      ∧ q.status
          = (if republishDemoPost.id = "p1" then PostStatus.PUBLISHED
             else republishDemoPost.status) :=
  updatePostStatus_publishedAt_amended republishDemoStore "p1"
    PostStatus.PUBLISHED 200 false republishDemoPost (by decide)

/-- C9: when a post is updated to PUBLISHED, (1) the post update itself —
status PUBLISHED and `publishedAt := now` — completes whether or not
marking the idea throws (best effort); (2) with no `ideaId` no idea is
modified; (3) with `ideaId = some i`, a throwing marking is swallowed and
leaves the ideas unchanged, while a successful marking applies
`markIdeaAsUsed`, which sets `used := true` on the originating idea. -/
theorem updatePostStatus_marks_idea_best_effort (st : Store) (id : String)
    (now : Int) (p : PostRec)
    (hp : st.posts.find? (fun q => q.id == id) = some p) :
    (∀ mf : Bool, ∃ q,
        q ∈ (updatePostStatus st id PostStatus.PUBLISHED now mf).posts
        ∧ q.id = p.id ∧ q.status = PostStatus.PUBLISHED
        ∧ q.publishedAt = some now)
    ∧ (p.ideaId = none → ∀ mf : Bool,
        (updatePostStatus st id PostStatus.PUBLISHED now mf).ideas = st.ideas)
    ∧ (∀ ideaId, p.ideaId = some ideaId →
        (updatePostStatus st id PostStatus.PUBLISHED now true).ideas = st.ideas
        ∧ (updatePostStatus st id PostStatus.PUBLISHED now false).ideas
            = markIdeaAsUsed st.ideas ideaId
        ∧ ∀ idea, idea ∈ st.ideas → idea.id = ideaId →
            { idea with used := true }
              ∈ (updatePostStatus st id PostStatus.PUBLISHED now false).ideas) := by
  have hmem : p ∈ st.posts := List.mem_of_find?_eq_some hp
  have hpid := List.find?_some hp
  refine ⟨?_, ?_, ?_⟩
  · intro mf
    refine ⟨_, List.mem_map_of_mem _ hmem, ?_, ?_, ?_⟩ <;> simp [hpid]
  · intro hidea mf
    simp [updatePostStatus, hp, hidea]
  · intro ideaId hidea
    refine ⟨?_, ?_, ?_⟩
    · simp [updatePostStatus, hp, hidea]
    · simp [updatePostStatus, hp, hidea]
    · intro idea hin hid
      simp only [updatePostStatus, hp, hidea]
      simpa [markIdeaAsUsed, hid] using
        List.mem_map_of_mem (fun i =>
          if i.id == ideaId then { i with used := true } else i) hin

/-- Witness for the best-effort idea marking on a concrete store. -/
theorem updatePostStatus_marks_idea_witness :
    (updatePostStatus ideaDemoStore "p2" PostStatus.PUBLISHED 500 true).ideas
        = ideaDemoStore.ideas
    ∧ (updatePostStatus ideaDemoStore "p2" PostStatus.PUBLISHED 500 false).ideas
        = markIdeaAsUsed ideaDemoStore.ideas "i1" := by
  have h := updatePostStatus_marks_idea_best_effort ideaDemoStore "p2" 500
    ideaBackrefPost (by decide)
  exact ⟨(h.2.2 "i1" rfl).1, (h.2.2 "i1" rfl).2.1⟩

/-- C6: (a) a well-formed legacy document with `isPublished = true`
normalizes to a post with status PUBLISHED and a non-null `publicUrl`
derived from the slug; (b) a legacy-collection document (no
automation-format fields) on which the mapper throws is replaced by the
minimal safe placeholder with status DRAFT — `normalizeExistingDoc` is a
total function, so no document makes the listing throw. -/
theorem normalizeExistingDoc_spec (now : Int) (d : ExistingDoc) :
    (LegacyShaped d → d.isPublished = some true →
      (normalizeExistingDoc now d).status = some PostStatus.PUBLISHED
      ∧ (normalizeExistingDoc now d).publicUrl ≠ none)
    ∧ (d.hasBrief = false → d.hasOutline = false → d.status = none →
        mapExistingPostToBlogPost now d = Except.error () →
        normalizeExistingDoc now d = placeholderPost now
        ∧ (normalizeExistingDoc now d).status = some PostStatus.DRAFT) := by
  constructor
  · rintro ⟨-, -, -, -, htag, -, hb, ho, hst⟩ hpub
    obtain ⟨tags, htags⟩ := Option.isSome_iff_exists.mp htag
    simp [normalizeExistingDoc, hb, ho, hst, mapExistingPostToBlogPost, htags,
      hpub, Option.isTruthy]
  · intro hb ho hst herr
    simp [normalizeExistingDoc, hb, ho, hst, herr, placeholderPost]

/-- Witness for the normalizer properties at two concrete documents. -/
theorem normalizeExistingDoc_spec_witness :
    ((normalizeExistingDoc 0 legacyDemoDoc).status = some PostStatus.PUBLISHED
      ∧ (normalizeExistingDoc 0 legacyDemoDoc).publicUrl ≠ none)
    ∧ (normalizeExistingDoc 0 malformedDemoDoc).status = some PostStatus.DRAFT :=
  ⟨(normalizeExistingDoc_spec 0 legacyDemoDoc).1 (by decide) rfl,
    ((normalizeExistingDoc_spec 0 malformedDemoDoc).2 rfl rfl rfl rfl).2⟩

/-- Flooring a whole number of days plus an in-range remainder recovers the
day count. -/
theorem fdiv_day_mul_add (d r : Int) (h0 : 0 ≤ r) (h1 : r < msPerDay) :
    Int.fdiv (msPerDay * d + r) msPerDay = d := by
  rw [Int.fdiv_eq_ediv _ (by norm_num [msPerDay] : (0 : Int) ≤ msPerDay)]
  simp only [msPerDay] at h1 ⊢
  omega

/-- Flooring an exact whole number of days recovers the day count. -/
theorem fdiv_day_mul (d : Int) : Int.fdiv (msPerDay * d) msPerDay = d := by
  have h := fdiv_day_mul_add d 0 le_rfl (by norm_num [msPerDay])
  simpa using h

/-- `startOfDay` is idempotent. -/
theorem startOfDay_idem (l : Int) : startOfDay (startOfDay l) = startOfDay l := by
  unfold startOfDay
  rw [fdiv_day_mul]

/-- On a start-of-day value, `setHours` just adds the hour offset. -/
theorem setHours_startOfDay (l h : Int) :
    setHours (startOfDay l) h = startOfDay l + h * msPerHour := by
  unfold setHours
  rw [startOfDay_idem, sub_self, Int.zero_fdiv]
  ring

/-- The candidate base is the publish hour on its day index. -/
theorem basePublishTime_eq (nowUtc : Int) (config : CadenceConfig) :
    basePublishTime nowUtc config
      = msPerDay * baseDay nowUtc config + config.publishHour * msPerHour := by
  simp only [basePublishTime, baseDay]
  by_cases hc : setHours (startOfDay (utcToZonedTime config.timezone nowUtc))
      config.publishHour < utcToZonedTime config.timezone nowUtc
  · rw [if_pos hc, if_pos hc, setHours_startOfDay]
    unfold addDays startOfDay
    ring
  · rw [if_neg hc, if_neg hc, setHours_startOfDay]
    unfold startOfDay
    ring

/-- The anchor instant is the publish hour on the anchor day index. -/
theorem anchorAtPublishHour_eq (config : CadenceConfig) :
    anchorAtPublishHour config
      = msPerDay * anchorDay config + config.publishHour * msPerHour := by
  simp only [anchorAtPublishHour, anchorDay]
  rw [setHours_startOfDay]
  unfold startOfDay
  ring

/-- `daysSinceAnchor` is the exact difference of day indices (both
instants sit at the same publish hour, so the floor is exact). -/
theorem daysSinceAnchor_eq (nowUtc : Int) (config : CadenceConfig) :
    daysSinceAnchor nowUtc config = baseDay nowUtc config - anchorDay config := by
  unfold daysSinceAnchor
  rw [basePublishTime_eq, anchorAtPublishHour_eq,
    show msPerDay * baseDay nowUtc config + config.publishHour * msPerHour
        - (msPerDay * anchorDay config + config.publishHour * msPerHour)
        = msPerDay * (baseDay nowUtc config - anchorDay config) by ring,
    fdiv_day_mul]

/-- The JavaScript remainder of a non-negative dividend by a positive
divisor lies in `[0, b)`. -/
theorem jsRem_nonneg_lt (a b : Int) (ha : 0 ≤ a) (hb : 0 < b) :
    0 ≤ jsRem a b ∧ jsRem a b < b := by
  unfold jsRem
  rw [Int.tmod_eq_emod ha (le_of_lt hb)]
  exact ⟨Int.emod_nonneg a (ne_of_gt hb), Int.emod_lt_of_pos a hb⟩

/-- The divisor divides the dividend minus its JavaScript remainder. -/
theorem jsRem_sub_dvd (a b : Int) : b ∣ a - jsRem a b := by
  unfold jsRem
  have h := Int.tdiv_add_tmod a b
  exact ⟨Int.tdiv a b, by omega⟩

/-- When the candidate base does not precede the anchor day, the chosen
slot sits at the publish hour of a day index that is congruent to the
anchor day modulo the interval, and not before the anchor day. -/
theorem nextSlotLocal_decomp (nowUtc : Int) (config : CadenceConfig)
    (hi : 1 ≤ config.intervalDays)
    (hanchor : 0 ≤ daysSinceAnchor nowUtc config) :
    ∃ d : Int,
      nextSlotLocal nowUtc config
          = msPerDay * d + config.publishHour * msPerHour
      ∧ jsRem (d - anchorDay config) config.intervalDays = 0
      ∧ anchorDay config ≤ d := by
  have hdays := daysSinceAnchor_eq nowUtc config
  unfold nextSlotLocal
  by_cases hr : jsRem (daysSinceAnchor nowUtc config) config.intervalDays = 0
  · refine ⟨baseDay nowUtc config, ?_, ?_, ?_⟩
    · rw [if_pos hr, basePublishTime_eq]
    · rw [show baseDay nowUtc config - anchorDay config
          = daysSinceAnchor nowUtc config by omega]
      exact hr
    · omega
  · obtain ⟨hr0, hrlt⟩ := jsRem_nonneg_lt (daysSinceAnchor nowUtc config)
      config.intervalDays hanchor (by omega)
    refine ⟨baseDay nowUtc config + (config.intervalDays
      - jsRem (daysSinceAnchor nowUtc config) config.intervalDays), ?_, ?_, ?_⟩
    · rw [if_neg hr, basePublishTime_eq]
      unfold addDays
      ring
    · obtain ⟨k, hk⟩ := jsRem_sub_dvd (daysSinceAnchor nowUtc config)
        config.intervalDays
      have hmul : baseDay nowUtc config
          + (config.intervalDays
              - jsRem (daysSinceAnchor nowUtc config) config.intervalDays)
          - anchorDay config
          = config.intervalDays * (k + 1) := by
        have : daysSinceAnchor nowUtc config
            - jsRem (daysSinceAnchor nowUtc config) config.intervalDays
            = config.intervalDays * k := hk
        rw [mul_add]
        omega
      rw [hmul]
      unfold jsRem
      exact Int.mul_tmod_right _ _
    · omega

/-- C1 amended: assume the config invariant (`intervalDays ≥ 1`,
`publishHour` in 0-23), a timezone whose offset functions agree at the
returned slot (round trip: converting the slot to UTC and back yields the
slot) and do not jump within the millisecond after it, and — the
amendment — that the candidate base does not precede the anchor day
(`daysSinceAnchor ≥ 0`, i.e. "now" is not before the 2025-01-01 anchor).
Then the slot computed at `scheduledAt + 1ms` lies exactly `intervalDays`
days after the first slot in local wall-clock time, and the first slot's
whole-day distance from the anchor publish instant is divisible by
`intervalDays`. -/
theorem computeNextSlots_cadence_aligned (config : CadenceConfig)
    (nowUtc : Int) (hi : 1 ≤ config.intervalDays)
    (hh0 : 0 ≤ config.publishHour) (hh1 : config.publishHour ≤ 23)
    (hanchor : 0 ≤ daysSinceAnchor nowUtc config)
    (hrt : config.timezone.utcOffset
        (zonedTimeToUtc config.timezone (nextSlotLocal nowUtc config))
        = config.timezone.localOffset (nextSlotLocal nowUtc config))
    (hstep : config.timezone.utcOffset
        ((computeNextSlots nowUtc config).scheduledAt + 1)
        = config.timezone.utcOffset
            ((computeNextSlots nowUtc config).scheduledAt)) :
    nextSlotLocal ((computeNextSlots nowUtc config).scheduledAt + 1) config
        = nextSlotLocal nowUtc config + config.intervalDays * msPerDay
    ∧ jsRem (Int.fdiv (nextSlotLocal nowUtc config
          - anchorAtPublishHour config) msPerDay) config.intervalDays = 0 := by
  obtain ⟨d, hL, hrem0, hdge⟩ := nextSlotLocal_decomp nowUtc config hi hanchor
  have hS : (computeNextSlots nowUtc config).scheduledAt
      = zonedTimeToUtc config.timezone (nextSlotLocal nowUtc config) := rfl
  have hz2 : utcToZonedTime config.timezone
      ((computeNextSlots nowUtc config).scheduledAt + 1)
      = nextSlotLocal nowUtc config + 1 := by
    unfold utcToZonedTime
    rw [hstep, hS, hrt]
    unfold zonedTimeToUtc
    ring
  have hb0 : 0 ≤ config.publishHour * msPerHour + 1 := by
    simp only [msPerHour]
    omega
  have hb1 : config.publishHour * msPerHour + 1 < msPerDay := by
    simp only [msPerHour, msPerDay]
    omega
  have hsod : startOfDay (msPerDay * d + (config.publishHour * msPerHour + 1))
      = msPerDay * d := by
    unfold startOfDay
    rw [fdiv_day_mul_add d _ hb0 hb1]
  have hbase2 : basePublishTime
      ((computeNextSlots nowUtc config).scheduledAt + 1) config
      = msPerDay * (d + 1) + config.publishHour * msPerHour := by
    simp only [basePublishTime]
    rw [hz2, hL,
      show msPerDay * d + config.publishHour * msPerHour + 1
        = msPerDay * d + (config.publishHour * msPerHour + 1) by ring,
      setHours_startOfDay, hsod,
      if_pos (by omega :
        msPerDay * d + config.publishHour * msPerHour
          < msPerDay * d + (config.publishHour * msPerHour + 1))]
    unfold addDays
    ring
  have hdays2 : daysSinceAnchor
      ((computeNextSlots nowUtc config).scheduledAt + 1) config
      = d + 1 - anchorDay config := by
    unfold daysSinceAnchor
    rw [hbase2, anchorAtPublishHour_eq,
      show msPerDay * (d + 1) + config.publishHour * msPerHour
          - (msPerDay * anchorDay config + config.publishHour * msPerHour)
          = msPerDay * (d + 1 - anchorDay config) by ring,
      fdiv_day_mul]
  obtain ⟨q, hq⟩ : config.intervalDays ∣ d - anchorDay config := by
    have h := jsRem_sub_dvd (d - anchorDay config) config.intervalDays
    rw [hrem0] at h
    rwa [sub_zero] at h
  have hq0 : 0 ≤ q := by
    by_contra hneg
    push_neg at hneg
    have h1 : config.intervalDays * q ≤ config.intervalDays * (-1) :=
      mul_le_mul_of_nonneg_left (by omega) (by omega)
    omega
  have hdays2' : daysSinceAnchor
      ((computeNextSlots nowUtc config).scheduledAt + 1) config
      = config.intervalDays * q + 1 := by
    rw [hdays2]
    omega
  have halign : Int.fdiv (nextSlotLocal nowUtc config
      - anchorAtPublishHour config) msPerDay = d - anchorDay config := by
    rw [hL, anchorAtPublishHour_eq,
      show msPerDay * d + config.publishHour * msPerHour
          - (msPerDay * anchorDay config + config.publishHour * msPerHour)
          = msPerDay * (d - anchorDay config) by ring,
      fdiv_day_mul]
  refine ⟨?_, by rw [halign]; exact hrem0⟩
  rw [hL]
  simp only [nextSlotLocal]
  rw [hdays2', hbase2]
  rcases eq_or_lt_of_le hi with hone | htwo
  · have h1 : jsRem (config.intervalDays * q + 1) config.intervalDays = 0 := by
      rw [← hone]
      unfold jsRem
      simp
    rw [if_pos h1, ← hone]
    ring
  · have hpos : (0 : Int) ≤ config.intervalDays * q :=
      mul_nonneg (by omega) hq0
    have h1 : jsRem (config.intervalDays * q + 1) config.intervalDays = 1 := by
      unfold jsRem
      rw [Int.tmod_eq_emod (by omega) (by omega),
        show config.intervalDays * q + 1 = 1 + config.intervalDays * q by ring,
        Int.add_mul_emod_self_left]
      exact Int.emod_eq_of_lt (by norm_num) (by omega)
    rw [if_neg (by rw [h1]; omega), h1]
    unfold addDays
    ring

/-- Witness for the amended cadence property: all hypotheses hold for
`demoCadence` at the anchor instant, and the theorem yields the two
conclusions there. -/
theorem computeNextSlots_cadence_witness :
    ((1 : Int) ≤ demoCadence.intervalDays
      ∧ (0 : Int) ≤ demoCadence.publishHour ∧ demoCadence.publishHour ≤ 23
      ∧ (0 : Int) ≤ daysSinceAnchor anchorDate demoCadence)
    ∧ (nextSlotLocal ((computeNextSlots anchorDate demoCadence).scheduledAt + 1)
          demoCadence
        = nextSlotLocal anchorDate demoCadence
            + demoCadence.intervalDays * msPerDay
      ∧ jsRem (Int.fdiv (nextSlotLocal anchorDate demoCadence
            - anchorAtPublishHour demoCadence) msPerDay)
          demoCadence.intervalDays = 0) :=
  ⟨by decide,
    computeNextSlots_cadence_aligned demoCadence anchorDate (by decide)
      (by decide) (by decide) (by decide) rfl rfl⟩

/-- C1 counterexample: with the valid config `preAnchorCadence` and
"now" = the epoch (1970, before the 2025 anchor), the JavaScript
remainder `daysSinceAnchor % intervalDays` is negative, and the slot
computed at `scheduledAt + 1ms` lands 4 days — twice `intervalDays` —
after the first slot, in local wall-clock time as well as UTC (offset
zero), so consecutive slots are not `intervalDays` days apart. -/
theorem computeNextSlots_preanchor_double_gap :
    ((1 : Int) ≤ preAnchorCadence.intervalDays
      ∧ (0 : Int) ≤ preAnchorCadence.publishHour
      ∧ preAnchorCadence.publishHour ≤ 23
      ∧ (1 : Int) ≤ preAnchorCadence.draftLeadHours)
    ∧ nextSlotLocal ((computeNextSlots 0 preAnchorCadence).scheduledAt + 1)
          preAnchorCadence
        - nextSlotLocal 0 preAnchorCadence
        = 4 * msPerDay
    ∧ nextSlotLocal ((computeNextSlots 0 preAnchorCadence).scheduledAt + 1)
          preAnchorCadence
        - nextSlotLocal 0 preAnchorCadence
        ≠ preAnchorCadence.intervalDays * msPerDay := by decide
